import Mathlib

/-
Verification development for the Web_Site_Monitor repository.

The repository contains two Python programs sharing one monitoring engine:

* URL_monitor.py      : a command-line monitor.  Its main() loop polls a fixed
  URL, classifies transport errors via a chain of except clauses, measures
  latency, detects content changes with a SHA1 hex digest kept in
  previous_Hash (initially the empty string), and on HTTP or unknown errors
  breaks out of the loop and emits a final Abort / "Monitoring terminated"
  pair of events.

* URL_monitor_gui.py  : a Tk front end whose monitor.run() thread does the
  same polling, with previous_Hash initially None, a keep_monitoring flag
  checked at loop top and once per second during the inter-poll sleep, and
  no post-loop output at all.

The embedding below is a direct transcription of those loops.  Effects are
made explicit: each console print, SMS notification request, progress mark,
one-second sleep tick and file write becomes an Event in the output list of
the loop functions.  A run is driven by a trace: the list of results the
successive requests.get calls (followed by raise_for_status) produce.  The
SHA1 hex digest function is abstracted as a parameter hash : Body -> String;
where a claim needs it, the hypothesis that hexdigest always returns a
40-character string is assumed explicitly.  Wall-clock latencies are
modelled as rationals, which preserves the order semantics of the
latency / timeout comparisons the code performs.
-/

/-- Bytes of a fetched response body (resp_URL.content). -/
abbrev Body := List Nat

/-- The transport-level exception classes distinguished by the except-clause
chains in URL_monitor.py main() and URL_monitor_gui.py monitor.run().
requests raises exceptions in the requests.exceptions.RequestException
hierarchy; the chains distinguish Timeout, ConnectionError, HTTPError
(raised by raise_for_status on a non-2xx status) and catch every remaining
RequestException with a final catch-all clause, modelled by
otherRequestError. -/
inductive TransportError
  | timeout
  | connectionError
  | httpError
  | otherRequestError
deriving DecidableEq

/-- The four error kinds of the design (section 7 of the design document). -/
inductive ErrorKind
  | Timeout
  | ConnectionFailure
  | ProtocolError
  | UnknownFailure
deriving DecidableEq

/-- Error classification implemented by the ordered except-clause chain in
both loops: except Timeout, except ConnectionError, except HTTPError,
except RequestException.  Each distinguishable transport error reaches
exactly the first clause matching it; anything that is none of the first
three classes falls through to the catch-all clause. -/
def classify : TransportError → ErrorKind
  | .timeout => .Timeout
  | .connectionError => .ConnectionFailure
  | .httpError => .ProtocolError
  | .otherRequestError => .UnknownFailure

/-- Result of one `requests.get` followed by `raise_for_status`: either a
successful response with its measured latency and body, or one of the
transport errors. -/
inductive FetchResult
  | ok (latency : ℚ) (body : Body)
  | err (e : TransportError)
deriving DecidableEq

/-- Whether a fetch result is one of the two fatal errors, i.e. one that a
loop answers with `break` (except HTTPError / except RequestException). -/
def isFatal : FetchResult → Bool
  | .err .httpError => true
  | .err .otherRequestError => true
  | _ => false

/-- Whether a fetch result is a successful response. -/
def isSuccess : FetchResult → Bool
  | .ok _ _ => true
  | _ => false

/-- Messages passed to send_sms at the various alert sites. -/
inductive SmsMsg
  | timeoutMsg
  | connectionMsg
  | httpMsg
  | unknownMsg
  | slowMsg
  | changedMsg
  | terminatedMsg
deriving DecidableEq

/-- Observable effects of the two monitoring loops.  Console outputs, SMS
notification requests, progress marks, sleep ticks and the file write are
each recorded as one event. -/
inductive Event
  | beginMonitoring
  | awsActive
  | awsNotConfigured
  | progressMark
  | sleepInterval (secs : Nat)
  | consoleTimeout
  | consoleConnection
  | consoleHttp
  | consoleUnknown
  | consoleSlow
  | hashSet (d : String)
  | hashChanged (d : String)
  | smsNotify (m : SmsMsg)
  | sendingSms (m : SmsMsg)
  | smsPublished (m : SmsMsg)
  | smsPublishFailed
  | fileWrite
  | abortConsole
  | dot
  | bar
deriving DecidableEq

/-- Events produced by a call of send_sms(client, m) as seen from a loop: an
SMS notification request is recorded exactly when AWS_Valid is set (in
URL_monitor.py the flag is checked inside send_sms, in URL_monitor_gui.py
at every call site), otherwise the call is a no-op. -/
def smsNotifyEvents (awsValid : Bool) (m : SmsMsg) : List Event :=
  if awsValid then [.smsNotify m] else []

/-- target_timeout of URL_monitor.py: acceptable seconds for the URL get. -/
def target_timeout : ℚ := 2

/-- test_interval of URL_monitor.py: seconds to sleep between checks. -/
def test_interval : Nat := 300

/-- State of the main() loop of URL_monitor.py: the stored digest
previous_Hash (initially the empty string), the first_Pass banner flag, and
a marker recording that the loop has exited via break. -/
structure CState where
  previousHash : String
  firstPass : Bool
  terminated : Bool
deriving DecidableEq

/-- Initial state of main(): previous_Hash = "", first_Pass = True. -/
def cliInit : CState := { previousHash := "", firstPass := true, terminated := false }

/-- One iteration of the while True loop of URL_monitor.py main(), given the
result of the fetch of this iteration.  At loop top the first pass prints the
banner lines, every later pass prints a progress mark and sleeps for
test_interval.  Then the fetch result is dispatched exactly as the
except-clause chain and the success path of the source do: Timeout and
ConnectionError alert and continue; HTTPError and the RequestException
catch-all alert and break; a success is checked for slowness
(latency >= target_timeout), fingerprinted with SHA1, compared against
previous_Hash with the empty string marking the baseline case, and written
to the target file. -/
def cliCycle (hash : Body → String) (awsValid : Bool) (r : FetchResult) (s : CState) :
    CState × List Event :=
  let pre : List Event :=
    if s.firstPass then
      .beginMonitoring :: (if awsValid then [.awsActive] else [.awsNotConfigured])
    else
      [.progressMark, .sleepInterval test_interval]
  let s1 : CState := { s with firstPass := false }
  match r with
  | .err .timeout =>
      (s1, pre ++ .consoleTimeout :: smsNotifyEvents awsValid .timeoutMsg)
  | .err .connectionError =>
      (s1, pre ++ .consoleConnection :: smsNotifyEvents awsValid .connectionMsg)
  | .err .httpError =>
      ({ s1 with terminated := true }, pre ++ .consoleHttp :: smsNotifyEvents awsValid .httpMsg)
  | .err .otherRequestError =>
      ({ s1 with terminated := true }, pre ++ .consoleUnknown :: smsNotifyEvents awsValid .unknownMsg)
  | .ok latency body =>
      let slowEvs : List Event :=
        if target_timeout ≤ latency then .consoleSlow :: smsNotifyEvents awsValid .slowMsg
        else []
      let d := hash body
      let hashStep : CState × List Event :=
        if d ≠ s1.previousHash then
          if s1.previousHash = "" then
            ({ s1 with previousHash := d }, [.hashSet d])
          else
            ({ s1 with previousHash := d }, .hashChanged d :: smsNotifyEvents awsValid .changedMsg)
        else (s1, [])
      (hashStep.1, pre ++ slowEvs ++ hashStep.2 ++ [.fileWrite])

/-- Events emitted by URL_monitor.py after the while loop exits via break:
the Abort console message and the "Monitoring terminated" SMS request
(the latter only when AWS_Valid), just before sys.exit(1). -/
def cliPostLoop (awsValid : Bool) : List Event :=
  .abortConsole :: smsNotifyEvents awsValid .terminatedMsg

/-- The main() loop of URL_monitor.py driven by a trace of fetch results.
Each list element feeds one iteration.  When an iteration breaks (fatal
error) the post-loop events are appended and the remaining trace is never
consumed; an exhausted trace simply stops supplying fetches to the still
running loop. -/
def cliRun (hash : Body → String) (awsValid : Bool) :
    List FetchResult → CState → CState × List Event
  | [], s => (s, [])
  | r :: rest, s =>
      let step := cliCycle hash awsValid r s
      if step.1.terminated then
        (step.1, step.2 ++ cliPostLoop awsValid)
      else
        let next := cliRun hash awsValid rest step.1
        (next.1, step.2 ++ next.2)

/-- One iteration of the GUI monitoring thread together with the tick during
its inter-poll sleep (counted from the start of the sleep phase) at which
the Stop button clears keep_monitoring, if that happens in this cycle. -/
structure GCycle where
  result : FetchResult
  cancelAt : Option Nat
deriving DecidableEq

/-- State of the monitor.run() loop of URL_monitor_gui.py: previous_Hash
(initially None), the shared keep_monitoring flag, and a marker recording
that the loop has exited via break. -/
structure GState where
  previousHash : Option String
  keepMonitoring : Bool
  broke : Bool
deriving DecidableEq

/-- Initial state of monitor.run() after Start: previous_Hash = None,
keep_monitoring = True. -/
def guiInit : GState := { previousHash := none, keepMonitoring := true, broke := false }

/-- The decomposed inter-poll sleep of monitor.run(): for i in
range(interval), each iteration checks keep_monitoring, prints a progress
dot and sleeps one second, breaking out as soon as the flag is observed
false.  cancelAt counts the one-second sleeps remaining until the Stop
button clears the flag: some 0 means the flag is cleared during the sleep
of the current iteration, so the very next per-second check observes it. -/
def sleepIter (cancelAt : Option Nat) : Nat → Bool → List Event × Bool
  | 0, km => ([], km)
  | n + 1, km =>
      if km then
        let km2 := if cancelAt = some 0 then false else km
        let r := sleepIter (cancelAt.map (· - 1)) n km2
        (.dot :: r.1, r.2)
      else ([], km)

/-- The full sleep phase at the bottom of a successful monitor.run()
iteration: the decomposed sleep loop followed by the bar progress mark that
is printed only when keep_monitoring is still set. -/
def sleepPhase (interval : Nat) (cancelAt : Option Nat) : List Event × Bool :=
  let r := sleepIter cancelAt interval true
  if r.2 then (r.1 ++ [.bar], r.2) else r

/-- The monitor.run() loop of URL_monitor_gui.py driven by a trace of
cycles.  The while condition checks keep_monitoring; the fetch result is
dispatched by the same except-clause chain as the command-line loop, except
that Timeout and ConnectionError continue directly to the next fetch
(skipping the sleep phase at the bottom of the body), the latency test uses
the configured timeout, the baseline case of change detection is
previous_Hash = None, fatal errors break with no post-loop output at all,
and a success ends with the preemptible sleep phase. -/
def guiRun (hash : Body → String) (awsValid : Bool) (interval : Nat) (timeout : ℚ) :
    List GCycle → GState → GState × List Event
  | [], s => (s, [])
  | c :: rest, s =>
      if s.keepMonitoring then
        match c.result with
        | .err .timeout =>
            let evs := Event.consoleTimeout :: smsNotifyEvents awsValid .timeoutMsg
            let next := guiRun hash awsValid interval timeout rest s
            (next.1, evs ++ next.2)
        | .err .connectionError =>
            let evs := Event.consoleConnection :: smsNotifyEvents awsValid .connectionMsg
            let next := guiRun hash awsValid interval timeout rest s
            (next.1, evs ++ next.2)
        | .err .httpError =>
            ({ s with broke := true },
             Event.consoleHttp :: smsNotifyEvents awsValid .httpMsg)
        | .err .otherRequestError =>
            ({ s with broke := true },
             Event.consoleUnknown :: smsNotifyEvents awsValid .unknownMsg)
        | .ok latency body =>
            let slowEvs : List Event :=
              if timeout ≤ latency then Event.consoleSlow :: smsNotifyEvents awsValid .slowMsg
              else []
            let d := hash body
            let hashStep : GState × List Event :=
              if some d ≠ s.previousHash then
                match s.previousHash with
                | none => ({ s with previousHash := some d }, [.hashSet d])
                | some _ => ({ s with previousHash := some d },
                             Event.hashChanged d :: smsNotifyEvents awsValid .changedMsg)
              else (s, [])
            let sleep := sleepPhase interval c.cancelAt
            let s2 : GState := { hashStep.1 with keepMonitoring := sleep.2 }
            let next := guiRun hash awsValid interval timeout rest s2
            (next.1, slowEvs ++ hashStep.2 ++ sleep.1 ++ next.2)
      else (s, [])

/-- Outcome of one client.publish call against AWS SNS. -/
inductive PubOutcome
  | ok
  | clientError
deriving DecidableEq

/-- The exception a failing publish raises (botocore ClientError). -/
inductive SmsErr
  | clientError
deriving DecidableEq

/-- client.publish as a fallible operation. -/
def publish : PubOutcome → Except SmsErr Unit
  | .ok => Except.ok ()
  | .clientError => Except.error .clientError

/-- send_sms of URL_monitor.py as an exception-transparent function: when
AWS_Valid it prints the Sending-SMS console line and then calls
client.publish inside try, answering a ClientError with the local error
print instead of re-raising; otherwise it does nothing.  The Except result
type records whether any exception escapes the routine. -/
def send_sms (awsValid : Bool) (p : PubOutcome) (m : SmsMsg) :
    Except SmsErr (List Event) :=
  if awsValid then
    match publish p with
    | Except.ok _ => Except.ok [.sendingSms m, .smsPublished m]
    | Except.error _ => Except.ok [.sendingSms m, .smsPublishFailed]
  else Except.ok []

/-- One alert site of the loops as a dispatch over the two channels, in
source order: the console print happens first, then send_sms is invoked;
an exception escaping send_sms would propagate to the caller here. -/
def dispatchAlert (awsValid : Bool) (p : PubOutcome) (consoleEv : Event) (m : SmsMsg) :
    Except SmsErr (List Event) :=
  match send_sms awsValid p m with
  | Except.ok evs => Except.ok (consoleEv :: evs)
  | Except.error e => Except.error e

/-- The console event each error kind produces at its alert site. -/
def consoleEventFor : ErrorKind → Event
  | .Timeout => .consoleTimeout
  | .ConnectionFailure => .consoleConnection
  | .ProtocolError => .consoleHttp
  | .UnknownFailure => .consoleUnknown

/-- The CELL_PHONE acceptance test of validate_environment in
URL_monitor.py (identically validate_aws_env in URL_monitor_gui.py):
len(target_phone) == 12 and target_phone[0:2] == "+1". -/
def phoneOk (s : String) : Bool :=
  s.length == 12 && s.take 2 == "+1"

/-- The while True retry loop of validate_environment driven by the list of
successive values the user supplies: the loop returns, storing the value in
CELL_PHONE, at the first value passing phoneOk; none models a user who
never supplies an accepted value, in which case the loop keeps prompting. -/
def validateCellPhone : List String → Option String
  | [] => none
  | p :: rest => if phoneOk p then some p else validateCellPhone rest

/-- A fixed 40-character stand-in digest used to evaluate the loops on
concrete inputs in witnesses. -/
def testDigest : String := "da39a3ee5e6b4b0d3255bfef95601890afd80709"

/-- A stand-in digest function used to evaluate the loops on concrete
inputs in witnesses. -/
def testHash : Body → String := fun _ => testDigest

/-- C5: error classification is total and deterministic: classify is a total
function on the transport errors the fetch can report, each error maps to
exactly one of the four kinds, the catch-all case maps to UnknownFailure,
and the command-line loop emits exactly the console alert of the classified
kind for every transport error. -/
theorem classify_total_deterministic :
    (∀ e : TransportError, ∃! k : ErrorKind, classify e = k) ∧
    classify .timeout = .Timeout ∧
    classify .connectionError = .ConnectionFailure ∧
    classify .httpError = .ProtocolError ∧
    classify .otherRequestError = .UnknownFailure ∧
    (∀ (hash : Body → String) (awsValid : Bool) (e : TransportError) (s : CState),
      consoleEventFor (classify e) ∈ (cliCycle hash awsValid (.err e) s).2) := by
  refine ⟨fun e => ⟨classify e, rfl, fun k hk => hk.symm⟩, rfl, rfl, rfl, rfl, ?_⟩
  intro hash awsValid e s
  cases e <;> cases awsValid <;>
    simp [cliCycle, classify, consoleEventFor, smsNotifyEvents]

/-- C9: a ClientError raised by the SMS publish is caught inside send_sms
and never propagates to the caller (the result is always ok); on failure a
local warning is recorded instead of an exception; and the console channel
receives every alert event no matter what the SMS publish does. -/
theorem sms_failure_isolated :
    (∀ (awsValid : Bool) (p : PubOutcome) (m : SmsMsg),
        ∃ evs, send_sms awsValid p m = Except.ok evs) ∧
    (∀ m : SmsMsg,
        send_sms true .clientError m = Except.ok [.sendingSms m, .smsPublishFailed]) ∧
    (∀ (awsValid : Bool) (p : PubOutcome) (ev : Event) (m : SmsMsg),
        ∃ evs, dispatchAlert awsValid p ev m = Except.ok evs ∧ ev ∈ evs) := by
  refine ⟨?_, fun m => rfl, ?_⟩
  · intro awsValid p m
    cases awsValid <;> cases p <;> simp [send_sms, publish]
  · intro awsValid p ev m
    cases awsValid <;> cases p <;> simp [dispatchAlert, send_sms, publish]

/-- C10: whenever the CELL_PHONE validation loop returns, the accepted
value has length exactly 12 and starts with the two characters plus-one; no
digit check is performed, so the input with ten trailing letters is
accepted although it contains characters that are not digits. -/
theorem validate_cellphone_accepts_shape :
    (∀ (inputs : List String) (s : String), validateCellPhone inputs = some s →
        s.length = 12 ∧ s.take 2 = "+1") ∧
    validateCellPhone ["+1abcdefghij"] = some "+1abcdefghij" ∧
    (∃ c ∈ ("+1abcdefghij" : String).toList, ¬ c.isDigit) := by
  refine ⟨?_, by decide, by decide⟩
  intro inputs
  induction inputs with
  | nil => intro s h; simp [validateCellPhone] at h
  | cons p rest ih =>
      intro s h
      by_cases hp : phoneOk p
      · simp only [validateCellPhone, hp, if_true, Option.some.injEq] at h
        subst h
        simpa [phoneOk] using hp
      · simp only [validateCellPhone, hp, if_false] at h
        exact ih s h

/-- Witness for C10 at a concrete accepted input. -/
theorem validate_cellphone_accepts_shape_witness :
    ("+12345678901" : String).length = 12 ∧ ("+12345678901" : String).take 2 = "+1" :=
  validate_cellphone_accepts_shape.1 ["+12345678901"] "+12345678901" (by decide)

/-- Helper: the decomposed sleep with no pending cancellation performs all
its one-second ticks and leaves the flag set. -/
theorem sleepIter_none (n : Nat) :
    sleepIter none n true = (List.replicate n Event.dot, true) := by
  induction n with
  | zero => rfl
  | succ n ih => simp [sleepIter, Option.map, ih, List.replicate_succ]

/-- Helper: a cancellation arriving during tick c of the decomposed sleep,
with c inside the interval, stops the sleep after exactly c + 1 ticks and
clears the flag. -/
theorem sleepIter_cancel (c n : Nat) (h : c < n) :
    sleepIter (some c) n true = (List.replicate (c + 1) Event.dot, false) := by
  induction c generalizing n with
  | zero =>
      cases n with
      | zero => omega
      | succ n =>
          have hfalse : ∀ m : Nat, sleepIter (some 0) m false = ([], false) := by
            intro m; cases m <;> simp [sleepIter]
          simp [sleepIter, hfalse, List.replicate_succ]
  | succ c ih =>
      cases n with
      | zero => omega
      | succ n =>
          have hc : c < n := by omega
          simp [sleepIter, Option.map, ih n hc, List.replicate_succ]

/-- Helper: a cancellation scheduled at or beyond the end of the interval
does not affect the decomposed sleep. -/
theorem sleepIter_late (c n : Nat) (h : n ≤ c) :
    sleepIter (some c) n true = (List.replicate n Event.dot, true) := by
  induction n generalizing c with
  | zero => rfl
  | succ n ih =>
      have hc0 : ¬ (some c = some 0) := by simp; omega
      have hc : n ≤ c - 1 := by omega
      simp [sleepIter, hc0, Option.map, ih (c - 1) hc, List.replicate_succ]

/-- Helper: full sleep phase with no cancellation: all ticks then the bar
mark, flag still set. -/
theorem sleepPhase_none (interval : Nat) :
    sleepPhase interval none = (List.replicate interval Event.dot ++ [Event.bar], true) := by
  simp [sleepPhase, sleepIter_none]

/-- Helper: full sleep phase cancelled at tick c inside the interval: c + 1
ticks, no bar mark, flag cleared. -/
theorem sleepPhase_cancel (c interval : Nat) (h : c < interval) :
    sleepPhase interval (some c) = (List.replicate (c + 1) Event.dot, false) := by
  simp [sleepPhase, sleepIter_cancel c interval h]

/-- Helper: full sleep phase with cancellation scheduled past the interval:
same as no cancellation. -/
theorem sleepPhase_late (c interval : Nat) (h : interval ≤ c) :
    sleepPhase interval (some c) = (List.replicate interval Event.dot ++ [Event.bar], true) := by
  simp [sleepPhase, sleepIter_late c interval h]

/-- Helper: every event of a sleep phase is a progress dot or the bar mark. -/
theorem sleepPhase_mem (interval : Nat) (ca : Option Nat) :
    ∀ e ∈ (sleepPhase interval ca).1, e = Event.dot ∨ e = Event.bar := by
  intro e he
  rcases ca with _ | c
  · rw [sleepPhase_none] at he
    simp [List.mem_replicate] at he
    tauto
  · rcases lt_or_ge c interval with h | h
    · rw [sleepPhase_cancel c interval h] at he
      simp [List.mem_replicate] at he
      tauto
    · rw [sleepPhase_late c interval h] at he
      simp [List.mem_replicate] at he
      tauto

/-- Helper: an event that is neither a dot nor the bar mark never occurs in
a sleep phase. -/
theorem not_mem_sleepPhase (interval : Nat) (ca : Option Nat) (e : Event)
    (hd : e ≠ Event.dot) (hb : e ≠ Event.bar) : e ∉ (sleepPhase interval ca).1 := by
  intro he
  rcases sleepPhase_mem interval ca e he with h | h <;> simp_all

/-- C7: on a successful fetch, the slow-response alert is emitted exactly
when the measured latency is greater than or equal to the configured
timeout, in both loops: the boundary is inclusive and a strictly smaller
latency produces no slow-response alert. -/
theorem slow_response_iff_latency_ge_timeout (hash : Body → String) (awsValid : Bool) :
    (∀ (lat : ℚ) (b : Body) (s : CState),
        Event.consoleSlow ∈ (cliCycle hash awsValid (.ok lat b) s).2 ↔ target_timeout ≤ lat) ∧
    (∀ (interval : Nat) (timeout lat : ℚ) (b : Body) (ca : Option Nat) (s : GState),
        s.keepMonitoring = true →
        (Event.consoleSlow ∈ (guiRun hash awsValid interval timeout [⟨.ok lat b, ca⟩] s).2 ↔
          timeout ≤ lat)) := by
  constructor
  · intro lat b s
    by_cases hc : target_timeout ≤ lat <;>
      cases awsValid <;>
        simp [cliCycle, smsNotifyEvents, hc] <;>
          split_ifs <;> simp
  · intro interval timeout lat b ca s hkm
    have hs := not_mem_sleepPhase interval ca Event.consoleSlow (by simp) (by simp)
    rcases hp : s.previousHash with _ | p <;>
      by_cases hc : timeout ≤ lat <;>
        cases awsValid <;>
          simp [guiRun, smsNotifyEvents, hkm, hp, hc, hs] <;>
            split_ifs <;> simp_all

/-- Witness for C7 at the inclusive boundary: interval 5, timeout 1, a
success with latency exactly 1 emits the slow-response alert. -/
theorem slow_response_iff_latency_ge_timeout_witness :
    Event.consoleSlow ∈ (guiRun testHash false 5 1 [⟨.ok 1 [0], none⟩] guiInit).2 :=
  ((slow_response_iff_latency_ge_timeout testHash false).2 5 1 1 [0] none guiInit rfl).mpr
    (by norm_num)

/-- C3: the first successful poll of a fresh monitor emits the baseline
digest event and never a content-changed alert, and no SMS change
notification is requested; moreover when the latency is below the timeout
no SMS notification of any kind is requested on that first poll.  The
hypothesis records that a SHA1 hexdigest is always a 40-character string,
so the computed digest can never equal the empty-string baseline marker of
the command-line loop. -/
theorem first_poll_emits_baseline_only (hash : Body → String) (awsValid : Bool)
    (h40 : ∀ b, (hash b).length = 40) :
    (∀ (lat : ℚ) (b : Body),
        Event.hashSet (hash b) ∈ (cliCycle hash awsValid (.ok lat b) cliInit).2 ∧
        (∀ d, Event.hashChanged d ∉ (cliCycle hash awsValid (.ok lat b) cliInit).2) ∧
        Event.smsNotify .changedMsg ∉ (cliCycle hash awsValid (.ok lat b) cliInit).2 ∧
        (lat < target_timeout →
          ∀ m, Event.smsNotify m ∉ (cliCycle hash awsValid (.ok lat b) cliInit).2)) ∧
    (∀ (interval : Nat) (timeout lat : ℚ) (b : Body) (ca : Option Nat),
        Event.hashSet (hash b) ∈
          (guiRun hash awsValid interval timeout [⟨.ok lat b, ca⟩] guiInit).2 ∧
        (∀ d, Event.hashChanged d ∉
          (guiRun hash awsValid interval timeout [⟨.ok lat b, ca⟩] guiInit).2) ∧
        Event.smsNotify .changedMsg ∉
          (guiRun hash awsValid interval timeout [⟨.ok lat b, ca⟩] guiInit).2 ∧
        (lat < timeout →
          ∀ m, Event.smsNotify m ∉
            (guiRun hash awsValid interval timeout [⟨.ok lat b, ca⟩] guiInit).2)) := by
  constructor
  · intro lat b
    have hd : hash b ≠ "" := by
      intro h
      have := h40 b
      rw [h] at this
      simp at this
    refine ⟨?_, ?_, ?_, ?_⟩
    · by_cases hc : target_timeout ≤ lat <;>
        cases awsValid <;> simp [cliCycle, cliInit, smsNotifyEvents, hc, hd]
    · intro d
      by_cases hc : target_timeout ≤ lat <;>
        cases awsValid <;> simp [cliCycle, cliInit, smsNotifyEvents, hc, hd]
    · by_cases hc : target_timeout ≤ lat <;>
        cases awsValid <;> simp [cliCycle, cliInit, smsNotifyEvents, hc, hd]
    · intro hlat m
      have hc : ¬ target_timeout ≤ lat := not_le.mpr hlat
      cases awsValid <;> simp [cliCycle, cliInit, smsNotifyEvents, hc, hd]
  · intro interval timeout lat b ca
    refine ⟨?_, ?_, ?_, ?_⟩
    · by_cases hc : timeout ≤ lat <;>
        cases awsValid <;> simp [guiRun, guiInit, smsNotifyEvents, hc]
    · intro d
      have hs := not_mem_sleepPhase interval ca (Event.hashChanged d) (by simp) (by simp)
      by_cases hc : timeout ≤ lat <;>
        cases awsValid <;> simp [guiRun, guiInit, smsNotifyEvents, hc, hs]
    · have hs := not_mem_sleepPhase interval ca (Event.smsNotify .changedMsg)
        (by simp) (by simp)
      by_cases hc : timeout ≤ lat <;>
        cases awsValid <;> simp [guiRun, guiInit, smsNotifyEvents, hc, hs]
    · intro hlat m
      have hc : ¬ timeout ≤ lat := not_le.mpr hlat
      have hs := not_mem_sleepPhase interval ca (Event.smsNotify m) (by simp) (by simp)
      cases awsValid <;> simp [guiRun, guiInit, smsNotifyEvents, hc, hs]

/-- Witness for C3: with a concrete 40-character digest function, a first
successful poll with latency 0 and body consisting of one byte emits the
baseline event, and requests no SMS notification. -/
theorem first_poll_emits_baseline_only_witness :
    Event.hashSet testDigest ∈ (cliCycle testHash true (.ok 0 [0]) cliInit).2 ∧
    (∀ m, Event.smsNotify m ∉ (cliCycle testHash true (.ok 0 [0]) cliInit).2) :=
  ⟨(first_poll_emits_baseline_only testHash true (fun b => by simp [testHash]; decide)).1
      0 [0] |>.1,
   (first_poll_emits_baseline_only testHash true (fun b => by simp [testHash]; decide)).1
      0 [0] |>.2.2.2 (by norm_num [target_timeout])⟩

/-- C2: a loop fed an unbroken sequence of Timeout results never exits: the
command-line loop never reaches its break (so the post-loop termination is
never emitted) and the GUI loop keeps its monitoring flag set and never
breaks, continuing until an external stop. -/
theorem timeouts_never_stop_loop (hash : Body → String) (awsValid : Bool) :
    (∀ (trace : List FetchResult), (∀ r ∈ trace, r = .err .timeout) →
      ∀ s : CState, s.terminated = false →
        (cliRun hash awsValid trace s).1.terminated = false ∧
        Event.abortConsole ∉ (cliRun hash awsValid trace s).2) ∧
    (∀ (interval : Nat) (timeout : ℚ) (gtrace : List GCycle),
      (∀ c ∈ gtrace, c.result = .err .timeout) →
      ∀ s : GState, s.keepMonitoring = true → s.broke = false →
        (guiRun hash awsValid interval timeout gtrace s).1.broke = false ∧
        (guiRun hash awsValid interval timeout gtrace s).1.keepMonitoring = true) := by
  constructor
  · intro trace
    induction trace with
    | nil => intro _ s hs; simpa [cliRun] using hs
    | cons r rest ih =>
        intro hall s hs
        have hr : r = FetchResult.err .timeout := hall r (by simp)
        subst hr
        have hrest : ∀ x ∈ rest, x = FetchResult.err .timeout := fun x hx =>
          hall x (by simp [hx])
        have hstep := ih hrest ⟨s.previousHash, false, false⟩ rfl
        cases awsValid <;>
          by_cases hf : s.firstPass <;>
            simp [cliRun, cliCycle, hs, hf, smsNotifyEvents, hstep.1, hstep.2]
  · intro interval timeout gtrace
    induction gtrace with
    | nil => intro _ s hkm hbr; simp [guiRun, hkm, hbr]
    | cons c rest ih =>
        intro hall s hkm hbr
        obtain ⟨cr, cca⟩ := c
        have hr : cr = FetchResult.err .timeout := by
          have := hall ⟨cr, cca⟩ (by simp)
          simpa using this
        subst hr
        have hrest : ∀ x ∈ rest, x.result = FetchResult.err .timeout := fun x hx =>
          hall x (by simp [hx])
        have hstep := ih hrest s hkm hbr
        simp [guiRun, hkm, hstep.1, hstep.2]

/-- Witness for C2: three consecutive timeouts leave the command-line loop
unterminated and the GUI loop still monitoring. -/
theorem timeouts_never_stop_loop_witness :
    (cliRun testHash false (List.replicate 3 (.err .timeout)) cliInit).1.terminated = false ∧
    (guiRun testHash false 5 1
      (List.replicate 3 ⟨.err .timeout, none⟩) guiInit).1.keepMonitoring = true :=
  ⟨((timeouts_never_stop_loop testHash false).1 _ (by decide) cliInit rfl).1,
   ((timeouts_never_stop_loop testHash false).2 5 1 _ (by decide) guiInit rfl rfl).2⟩

/-- Helper: an error iteration of the command-line loop leaves the stored
digest unchanged. -/
theorem cliCycle_err_prevHash (hash : Body → String) (awsValid : Bool)
    (e : TransportError) (s : CState) :
    (cliCycle hash awsValid (.err e) s).1.previousHash = s.previousHash := by
  cases e <;> simp [cliCycle]

/-- Helper: a non-fatal iteration of the command-line loop does not set the
termination marker. -/
theorem cliCycle_term (hash : Body → String) (awsValid : Bool) (r : FetchResult)
    (s : CState) (hnf : isFatal r = false) (hs : s.terminated = false) :
    (cliCycle hash awsValid r s).1.terminated = false := by
  rcases r with ⟨lat, b⟩ | e
  · simp only [cliCycle]
    split_ifs <;> simp [hs]
  · cases e <;> simp_all [cliCycle, isFatal]

/-- Helper: a successful iteration of the command-line loop on a fresh
state stores the digest of the body. -/
theorem cliCycle_success_fresh (hash : Body → String) (awsValid : Bool)
    (lat : ℚ) (b : Body) (s : CState) (hne : hash b ≠ "") (h : s.previousHash = "") :
    (cliCycle hash awsValid (.ok lat b) s).1.previousHash = hash b := by
  simp [cliCycle, h, hne]

/-- Helper: once the stored digest of the command-line loop is non-empty it
stays non-empty, digests being non-empty. -/
theorem cliRun_prevHash_ne (hash : Body → String) (awsValid : Bool)
    (hne : ∀ b, hash b ≠ "") (trace : List FetchResult) :
    ∀ s : CState, s.previousHash ≠ "" →
      (cliRun hash awsValid trace s).1.previousHash ≠ "" := by
  induction trace with
  | nil => intro s h; simpa [cliRun]
  | cons r rest ih =>
      intro s h
      rcases r with ⟨lat, b⟩ | e
      · by_cases hd : hash b = s.previousHash <;>
          by_cases hc : target_timeout ≤ lat <;>
            simp only [cliRun, cliCycle, hd, hc] <;>
              split_ifs <;>
                first
                  | (apply ih; simp_all)
                  | simp_all
      · cases e <;>
          simp only [cliRun, cliCycle] <;>
            split_ifs <;>
              first
                | (apply ih; simpa)
                | simpa

/-- Helper: a successful iteration of the GUI loop hands the rest of the
trace a state whose stored digest is either the digest just computed or the
unchanged previous one, and whose monitoring flag is the outcome of the
sleep phase. -/
theorem guiRun_success_state (hash : Body → String) (awsValid : Bool)
    (interval : Nat) (timeout lat : ℚ) (b : Body) (cca : Option Nat)
    (rest : List GCycle) (s : GState) (hkm : s.keepMonitoring = true) :
    ∃ s2 : GState,
      (s2.previousHash = some (hash b) ∨ s2.previousHash = s.previousHash) ∧
      s2.keepMonitoring = (sleepPhase interval cca).2 ∧
      (guiRun hash awsValid interval timeout (⟨.ok lat b, cca⟩ :: rest) s).1 =
        (guiRun hash awsValid interval timeout rest s2).1 := by
  simp only [guiRun, hkm, if_true]
  refine ⟨_, ?_, ?_, rfl⟩
  · split_ifs <;> rcases hp : s.previousHash with _ | p <;> simp [hp]
  · rfl

/-- Helper: once the GUI loop has stored a digest it never returns to the
None baseline marker. -/
theorem guiRun_prevHash_ne (hash : Body → String) (awsValid : Bool)
    (interval : Nat) (timeout : ℚ) (gtrace : List GCycle) :
    ∀ s : GState, s.previousHash ≠ none →
      (guiRun hash awsValid interval timeout gtrace s).1.previousHash ≠ none := by
  induction gtrace with
  | nil => intro s h; simpa [guiRun]
  | cons c rest ih =>
      intro s h
      by_cases hkm : s.keepMonitoring
      · rcases c with ⟨cr, cca⟩
        rcases cr with ⟨lat, b⟩ | e
        · obtain ⟨s2, hps, _, heq⟩ :=
            guiRun_success_state hash awsValid interval timeout lat b cca rest s hkm
          rw [heq]
          apply ih
          rcases hps with h1 | h1
          · simp [h1]
          · rw [h1]; exact h
        · cases e <;>
            simp only [guiRun, hkm, if_true] <;>
              first
                | (apply ih; exact h)
                | exact h
      · simp only [guiRun, hkm, if_false]
        simpa using h

/-- Helper: over any non-fatal trace, the command-line loop has an empty
stored digest exactly when the trace contains no successful poll. -/
theorem cliRun_baseline_iff (hash : Body → String) (awsValid : Bool)
    (hne : ∀ b, hash b ≠ "") (trace : List FetchResult) :
    ∀ s : CState, s.previousHash = "" → s.terminated = false →
      (∀ r ∈ trace, isFatal r = false) →
      (((cliRun hash awsValid trace s).1.previousHash = "") ↔
        ∀ r ∈ trace, isSuccess r = false) := by
  induction trace with
  | nil => intro s h _ _; simp [cliRun, h]
  | cons r rest ih =>
      intro s h ht hall
      have hrest : ∀ x ∈ rest, isFatal x = false := fun x hx => hall x (by simp [hx])
      rcases r with ⟨lat, b⟩ | e
      · have hstep1 : (cliCycle hash awsValid (.ok lat b) s).1.previousHash = hash b :=
          cliCycle_success_fresh hash awsValid lat b s (hne b) h
        have hterm : (cliCycle hash awsValid (.ok lat b) s).1.terminated = false :=
          cliCycle_term hash awsValid _ s (by simp [isFatal]) ht
        refine iff_of_false ?_ ?_
        · simp only [cliRun, hterm, if_false]
          apply cliRun_prevHash_ne hash awsValid hne
          simp [hstep1, hne b]
        · intro hR
          have := hR (.ok lat b) (by simp)
          simp [isSuccess] at this
      · have hef : isFatal (FetchResult.err e) = false := hall _ (by simp)
        have hterm : (cliCycle hash awsValid (.err e) s).1.terminated = false :=
          cliCycle_term hash awsValid _ s hef ht
        have hprev : (cliCycle hash awsValid (.err e) s).1.previousHash = "" := by
          rw [cliCycle_err_prevHash]; exact h
        have hmain := ih (cliCycle hash awsValid (.err e) s).1 hprev hterm hrest
        cases e <;> simp_all [cliRun, isSuccess, isFatal]

/-- Helper: a successful iteration of the GUI loop from a fresh state hands
the rest of the trace a state whose stored digest is the digest of the
fetched body. -/
theorem guiRun_success_fresh_state (hash : Body → String) (awsValid : Bool)
    (interval : Nat) (timeout lat : ℚ) (b : Body) (cca : Option Nat)
    (rest : List GCycle) (s : GState) (hkm : s.keepMonitoring = true)
    (h : s.previousHash = none) :
    ∃ s2 : GState, s2.previousHash = some (hash b) ∧
      (guiRun hash awsValid interval timeout (⟨.ok lat b, cca⟩ :: rest) s).1 =
        (guiRun hash awsValid interval timeout rest s2).1 := by
  simp only [guiRun, hkm, if_true, h, ne_eq, Option.some_ne_none, not_false_iff]
  refine ⟨_, ?_, rfl⟩
  simp

/-- Helper: over any non-fatal trace, the GUI loop has the None baseline
marker exactly when the trace contains no successful poll. -/
theorem guiRun_baseline_iff (hash : Body → String) (awsValid : Bool)
    (interval : Nat) (timeout : ℚ) (gtrace : List GCycle) :
    ∀ s : GState, s.previousHash = none → s.keepMonitoring = true →
      (∀ c ∈ gtrace, isFatal c.result = false) →
      (((guiRun hash awsValid interval timeout gtrace s).1.previousHash = none) ↔
        ∀ c ∈ gtrace, isSuccess c.result = false) := by
  induction gtrace with
  | nil => intro s h _ _; simp [guiRun, h]
  | cons c rest ih =>
      intro s h hkm hall
      have hrest : ∀ x ∈ rest, isFatal x.result = false := fun x hx => hall x (by simp [hx])
      rcases c with ⟨cr, cca⟩
      rcases cr with ⟨lat, b⟩ | e
      · obtain ⟨s2, hp2, heq⟩ :=
          guiRun_success_fresh_state hash awsValid interval timeout lat b cca rest s hkm h
        refine iff_of_false ?_ ?_
        · rw [heq]
          apply guiRun_prevHash_ne
          simp [hp2]
        · intro hR
          have := hR ⟨.ok lat b, cca⟩ (by simp)
          simp [isSuccess] at this
      · have hef := hall ⟨.err e, cca⟩ (by simp)
        have hmain := ih s h hkm hrest
        cases e
        · simp only [guiRun, hkm, if_true]
          simpa [isSuccess] using hmain
        · simp only [guiRun, hkm, if_true]
          simpa [isSuccess] using hmain
        · exact absurd hef (by simp [isFatal])
        · exact absurd hef (by simp [isFatal])

/-- C8: the first-poll marker of the monitoring state, realised in both
loops as the absence of a stored fingerprint (empty string in the
command-line loop, None in the GUI loop), holds exactly as long as no
successful poll has happened: failed fetches leave it in place and only a
successful poll clears it, after which it stays cleared for every later
poll of the run. -/
theorem first_poll_flag_iff (hash : Body → String) (awsValid : Bool)
    (h40 : ∀ b, (hash b).length = 40) :
    (∀ trace : List FetchResult, (∀ r ∈ trace, isFatal r = false) →
      (((cliRun hash awsValid trace cliInit).1.previousHash = "") ↔
        ∀ r ∈ trace, isSuccess r = false)) ∧
    (∀ (interval : Nat) (timeout : ℚ) (gtrace : List GCycle),
      (∀ c ∈ gtrace, isFatal c.result = false) →
      (((guiRun hash awsValid interval timeout gtrace guiInit).1.previousHash = none) ↔
        ∀ c ∈ gtrace, isSuccess c.result = false)) := by
  have hne : ∀ b, hash b ≠ "" := by
    intro b hb
    have := h40 b
    rw [hb] at this
    simp at this
  exact ⟨fun trace => cliRun_baseline_iff hash awsValid hne trace cliInit rfl rfl,
         fun interval timeout gtrace =>
           guiRun_baseline_iff hash awsValid interval timeout gtrace guiInit rfl rfl⟩

/-- Witness for C8: a failed first fetch leaves the baseline marker of the
command-line loop in place. -/
theorem first_poll_flag_iff_witness :
    (cliRun testHash false [.err .timeout] cliInit).1.previousHash = "" :=
  ((first_poll_flag_iff testHash false (fun b => by simp [testHash]; decide)).1
      [.err .timeout] (by decide)).mpr (by decide)

/-- Helper: once the monitoring flag is observed false at loop top, the GUI
loop consumes nothing further and emits nothing further. -/
theorem guiRun_stopped (hash : Body → String) (awsValid : Bool)
    (interval : Nat) (timeout : ℚ) (trace : List GCycle) (s : GState)
    (h : s.keepMonitoring = false) :
    guiRun hash awsValid interval timeout trace s = (s, []) := by
  cases trace <;> simp [guiRun, h]

/-- Helper: full decomposition of a successful GUI iteration: the run on
the remaining trace resumes from a state with the monitoring flag produced
by the sleep phase and an unchanged broke marker, and the events of the
iteration are the slow-response part, then the change-detection part (each
of whose events is the baseline event, the changed event or the changed SMS
request), then the sleep phase. -/
theorem guiRun_success_decomp (hash : Body → String) (awsValid : Bool)
    (interval : Nat) (timeout lat : ℚ) (b : Body) (ca : Option Nat) (s : GState)
    (hkm : s.keepMonitoring = true) :
    ∃ (hevs : List Event) (s2 : GState),
      (∀ tr : List GCycle,
        guiRun hash awsValid interval timeout (⟨.ok lat b, ca⟩ :: tr) s =
          ((guiRun hash awsValid interval timeout tr s2).1,
           (if timeout ≤ lat then Event.consoleSlow :: smsNotifyEvents awsValid .slowMsg else [])
             ++ hevs ++ (sleepPhase interval ca).1
             ++ (guiRun hash awsValid interval timeout tr s2).2)) ∧
      s2.keepMonitoring = (sleepPhase interval ca).2 ∧
      s2.broke = s.broke ∧
      (∀ e ∈ hevs, e = Event.hashSet (hash b) ∨ e = Event.hashChanged (hash b) ∨
        e = Event.smsNotify .changedMsg) := by
  rcases hp : s.previousHash with _ | p
  · refine ⟨[Event.hashSet (hash b)],
      ⟨some (hash b), (sleepPhase interval ca).2, s.broke⟩, fun tr => ?_, rfl, rfl, by simp⟩
    simp [guiRun, hkm, hp]
  · by_cases hd : hash b = p
    · refine ⟨[], ⟨some p, (sleepPhase interval ca).2, s.broke⟩, fun tr => ?_, rfl, rfl, by simp⟩
      simp [guiRun, hkm, hp, hd]
    · refine ⟨Event.hashChanged (hash b) :: smsNotifyEvents awsValid .changedMsg,
        ⟨some (hash b), (sleepPhase interval ca).2, s.broke⟩, fun tr => ?_, rfl, rfl, ?_⟩
      · simp [guiRun, hkm, hp, hd]
      · intro e he
        rcases List.mem_cons.mp he with rfl | he
        · simp
        · cases awsValid <;> simp [smsNotifyEvents] at he
          simp [he]

/-- C6: clearing the monitoring flag at tick c of the inter-poll sleep of a
GUI cycle makes the loop exit: the remaining trace is never consumed, the
exit is not via break and no termination alert is emitted, and the
decomposed sleep stops after exactly c + 1 one-second ticks (one tick after
the cancellation lands, the per-second flag check observes it), skipping
the rest of the interval and the bar mark. -/
theorem stop_during_sleep_exits (hash : Body → String) (awsValid : Bool)
    (interval : Nat) (timeout lat : ℚ) (b : Body) (c : Nat) (rest : List GCycle)
    (s : GState) (hkm : s.keepMonitoring = true) (hc : c < interval) :
    guiRun hash awsValid interval timeout (⟨.ok lat b, some c⟩ :: rest) s =
      guiRun hash awsValid interval timeout [⟨.ok lat b, some c⟩] s ∧
    (guiRun hash awsValid interval timeout
      (⟨.ok lat b, some c⟩ :: rest) s).1.keepMonitoring = false ∧
    (guiRun hash awsValid interval timeout (⟨.ok lat b, some c⟩ :: rest) s).1.broke = s.broke ∧
    Event.abortConsole ∉ (guiRun hash awsValid interval timeout
      (⟨.ok lat b, some c⟩ :: rest) s).2 ∧
    (guiRun hash awsValid interval timeout
      (⟨.ok lat b, some c⟩ :: rest) s).2.count Event.dot = c + 1 ∧
    Event.bar ∉ (guiRun hash awsValid interval timeout (⟨.ok lat b, some c⟩ :: rest) s).2 := by
  obtain ⟨hevs, s2, hrun, hkm2, hbr2, hmem⟩ :=
    guiRun_success_decomp hash awsValid interval timeout lat b (some c) s hkm
  have hsp := sleepPhase_cancel c interval hc
  have hs2km : s2.keepMonitoring = false := by rw [hkm2, hsp]
  have hstop1 := guiRun_stopped hash awsValid interval timeout rest s2 hs2km
  have hstop2 := guiRun_stopped hash awsValid interval timeout [] s2 hs2km
  have hslow : Event.dot ∉
      (if timeout ≤ lat then Event.consoleSlow :: smsNotifyEvents awsValid .slowMsg else []) ∧
      Event.abortConsole ∉
      (if timeout ≤ lat then Event.consoleSlow :: smsNotifyEvents awsValid .slowMsg else []) ∧
      Event.bar ∉
      (if timeout ≤ lat then Event.consoleSlow :: smsNotifyEvents awsValid .slowMsg else []) := by
    split_ifs <;> cases awsValid <;> simp [smsNotifyEvents]
  have hhevs : Event.dot ∉ hevs ∧ Event.abortConsole ∉ hevs ∧ Event.bar ∉ hevs := by
    refine ⟨?_, ?_, ?_⟩ <;>
      · intro hin
        rcases hmem _ hin with h | h | h <;> simp at h
  refine ⟨?_, ?_, ?_, ?_, ?_, ?_⟩
  · rw [hrun rest, hrun [], hstop1, hstop2]
  · rw [hrun rest, hstop1]; exact hs2km
  · rw [hrun rest, hstop1]; exact hbr2
  · rw [hrun rest, hstop1]
    simp [hsp, List.mem_replicate, hslow.2.1, hhevs.2.1]
  · rw [hrun rest, hstop1]
    simp [hsp, List.count_append, List.count_replicate,
      List.count_eq_zero.mpr hslow.1, List.count_eq_zero.mpr hhevs.1]
  · rw [hrun rest, hstop1]
    simp [hsp, List.mem_replicate, hslow.2.2, hhevs.2.2]

/-- Witness for C6: interval 5, timeout 1, a fast success whose sleep is
cancelled at tick 2: the loop exits after exactly 3 ticks, without break
and without any termination alert, ignoring the rest of the trace. -/
theorem stop_during_sleep_exits_witness :
    (guiRun testHash false 5 1
      [⟨.ok 0 [0], some 2⟩, ⟨.err .timeout, none⟩] guiInit).1.keepMonitoring = false ∧
    (guiRun testHash false 5 1
      [⟨.ok 0 [0], some 2⟩, ⟨.err .timeout, none⟩] guiInit).2.count Event.dot = 3 :=
  ⟨(stop_during_sleep_exits testHash false 5 1 0 [0] 2 [⟨.err .timeout, none⟩]
      guiInit rfl (by norm_num)).2.1,
   (stop_during_sleep_exits testHash false 5 1 0 [0] 2 [⟨.err .timeout, none⟩]
      guiInit rfl (by norm_num)).2.2.2.2.1⟩

/-- Helper: no iteration of the command-line loop emits the Abort
termination alert; it only appears in the post-loop code. -/
theorem cliCycle_no_abort (hash : Body → String) (awsValid : Bool)
    (r : FetchResult) (s : CState) :
    Event.abortConsole ∉ (cliCycle hash awsValid r s).2 := by
  rcases r with ⟨lat, b⟩ | e
  · by_cases hf : s.firstPass <;>
      cases awsValid <;>
        simp only [cliCycle, hf] <;>
          split_ifs <;> simp [smsNotifyEvents]
  · cases e <;>
      by_cases hf : s.firstPass <;>
        cases awsValid <;>
          simp [cliCycle, hf, smsNotifyEvents]

/-- C4 amended: in the command-line loop every iteration clears the
first-pass flag and every iteration after the first begins with the
progress mark and the full inter-poll sleep, so Success, Timeout and
ConnectionFailure all continue only after the sleep.  In the GUI loop this
holds only for Success: an uncancelled success cycle performs the whole
interval of sleep ticks and the bar mark before the next cycle, but a
Timeout cycle and a ConnectionFailure cycle each continue straight to the
next fetch with no sleep tick at all (their continue statements skip the
sleep phase at the bottom of the loop body). -/
theorem sleep_before_next_cycle_amended (hash : Body → String) (awsValid : Bool) :
    (∀ (r : FetchResult) (s : CState), (cliCycle hash awsValid r s).1.firstPass = false) ∧
    (∀ (r : FetchResult) (s : CState), s.firstPass = false →
      (cliCycle hash awsValid r s).2.take 2 =
        [Event.progressMark, Event.sleepInterval test_interval]) ∧
    (∀ (interval : Nat) (timeout lat : ℚ) (b : Body) (rest : List GCycle) (s : GState),
      s.keepMonitoring = true →
      ∃ (evs1 : List Event) (s2 : GState),
        Event.dot ∉ evs1 ∧ s2.keepMonitoring = true ∧
        guiRun hash awsValid interval timeout (⟨.ok lat b, none⟩ :: rest) s =
          ((guiRun hash awsValid interval timeout rest s2).1,
           evs1 ++ List.replicate interval Event.dot ++ [Event.bar]
             ++ (guiRun hash awsValid interval timeout rest s2).2)) ∧
    (∀ (interval : Nat) (timeout : ℚ) (ca : Option Nat) (rest : List GCycle) (s : GState),
      s.keepMonitoring = true →
      guiRun hash awsValid interval timeout (⟨.err .timeout, ca⟩ :: rest) s =
        ((guiRun hash awsValid interval timeout rest s).1,
         (Event.consoleTimeout :: smsNotifyEvents awsValid .timeoutMsg)
           ++ (guiRun hash awsValid interval timeout rest s).2) ∧
      Event.dot ∉ Event.consoleTimeout :: smsNotifyEvents awsValid .timeoutMsg ∧
      Event.bar ∉ Event.consoleTimeout :: smsNotifyEvents awsValid .timeoutMsg) ∧
    (∀ (interval : Nat) (timeout : ℚ) (ca : Option Nat) (rest : List GCycle) (s : GState),
      s.keepMonitoring = true →
      guiRun hash awsValid interval timeout (⟨.err .connectionError, ca⟩ :: rest) s =
        ((guiRun hash awsValid interval timeout rest s).1,
         (Event.consoleConnection :: smsNotifyEvents awsValid .connectionMsg)
           ++ (guiRun hash awsValid interval timeout rest s).2) ∧
      Event.dot ∉ Event.consoleConnection :: smsNotifyEvents awsValid .connectionMsg ∧
      Event.bar ∉ Event.consoleConnection :: smsNotifyEvents awsValid .connectionMsg) := by
  refine ⟨?_, ?_, ?_, ?_, ?_⟩
  · intro r s
    rcases r with ⟨lat, b⟩ | e
    · simp only [cliCycle]
      split_ifs <;> simp
    · cases e <;> simp [cliCycle]
  · intro r s hf
    rcases r with ⟨lat, b⟩ | e
    · simp [cliCycle, hf]
    · cases e <;> simp [cliCycle, hf]
  · intro interval timeout lat b rest s hkm
    obtain ⟨hevs, s2, hrun, hkm2, _, hmem⟩ :=
      guiRun_success_decomp hash awsValid interval timeout lat b none s hkm
    refine ⟨(if timeout ≤ lat then Event.consoleSlow :: smsNotifyEvents awsValid .slowMsg
              else []) ++ hevs, s2, ?_, ?_, ?_⟩
    · intro hin
      rcases List.mem_append.mp hin with h | h
      · revert h
        split_ifs <;> cases awsValid <;> simp [smsNotifyEvents]
      · rcases hmem _ h with h | h | h <;> simp at h
    · rw [hkm2, sleepPhase_none]
    · rw [hrun rest, sleepPhase_none]
      simp [List.append_assoc]
  · intro interval timeout ca rest s hkm
    refine ⟨by simp [guiRun, hkm], ?_, ?_⟩ <;>
      cases awsValid <;> simp [smsNotifyEvents]
  · intro interval timeout ca rest s hkm
    refine ⟨by simp [guiRun, hkm], ?_, ?_⟩ <;>
      cases awsValid <;> simp [smsNotifyEvents]

/-- Counterexample for C4 as stated: with interval 5, a Timeout cycle is
followed immediately by the next fetch: the event right after the Timeout
alert is already the baseline event of the next cycle, with zero of the five
sleep ticks in between (the five ticks appear only after the later
successful cycle). -/
theorem sleep_before_next_cycle_counterexample :
    (guiRun testHash false 5 1 [⟨.err .timeout, none⟩, ⟨.ok 0 [0], none⟩] guiInit).2 =
      [Event.consoleTimeout, Event.hashSet testDigest,
       Event.dot, Event.dot, Event.dot, Event.dot, Event.dot, Event.bar] ∧
    (guiRun testHash false 5 1
      [⟨.err .timeout, none⟩, ⟨.ok 0 [0], none⟩] guiInit).2.take 2 =
      [Event.consoleTimeout, Event.hashSet testDigest] ∧
    (5 : Nat) ≠ 0 :=
  ⟨by decide, by decide, by decide⟩

/-- Witness for C4: a cycle from a state past the first pass begins with
the progress mark and the 300 second inter-poll sleep. -/
theorem sleep_before_next_cycle_amended_witness :
    (cliCycle testHash false (.err .timeout) ⟨"", false, false⟩).2.take 2 =
      [Event.progressMark, Event.sleepInterval test_interval] :=
  (sleep_before_next_cycle_amended testHash false).2.1 (.err .timeout) ⟨"", false, false⟩ rfl

/-- C1 amended: a poll cycle whose fetch raises HTTPError makes both loops
exit within that same cycle (the rest of the trace is never consumed).  The
command-line loop then emits exactly one termination alert, after the loop
exits; the GUI loop emits no termination alert at all after exiting. -/
theorem protocol_error_stops_loop_amended (hash : Body → String) (awsValid : Bool) :
    (∀ (pre : List FetchResult), (∀ r ∈ pre, isFatal r = false) →
      ∀ (rest : List FetchResult) (s : CState), s.terminated = false →
        cliRun hash awsValid (pre ++ .err .httpError :: rest) s =
          cliRun hash awsValid (pre ++ [.err .httpError]) s ∧
        (cliRun hash awsValid (pre ++ [.err .httpError]) s).1.terminated = true ∧
        (cliRun hash awsValid
          (pre ++ [.err .httpError]) s).2.count Event.abortConsole = 1) ∧
    (∀ (interval : Nat) (timeout : ℚ) (ca : Option Nat) (rest : List GCycle) (s : GState),
      s.keepMonitoring = true →
      guiRun hash awsValid interval timeout (⟨.err .httpError, ca⟩ :: rest) s =
        ({ s with broke := true },
         Event.consoleHttp :: smsNotifyEvents awsValid .httpMsg) ∧
      Event.abortConsole ∉ Event.consoleHttp :: smsNotifyEvents awsValid .httpMsg) := by
  constructor
  · intro pre
    induction pre with
    | nil =>
        intro _ rest s hs
        have hz := List.count_eq_zero.mpr
          (cliCycle_no_abort hash awsValid (.err .httpError) s)
        refine ⟨?_, ?_, ?_⟩
        · simp [cliRun, cliCycle]
        · simp [cliRun, cliCycle]
        · simp only [List.nil_append, cliRun, cliCycle]
          cases awsValid <;>
            by_cases hf : s.firstPass <;>
              simp_all [cliPostLoop, smsNotifyEvents, List.count_append, cliCycle]
    | cons r pre ih =>
        intro hall rest s hs
        have hr : isFatal r = false := hall r (by simp)
        have hpre : ∀ x ∈ pre, isFatal x = false := fun x hx => hall x (by simp [hx])
        have hterm := cliCycle_term hash awsValid r s hr hs
        have ihs := ih hpre rest (cliCycle hash awsValid r s).1 hterm
        have hz := List.count_eq_zero.mpr (cliCycle_no_abort hash awsValid r s)
        refine ⟨?_, ?_, ?_⟩
        · simp [cliRun, hterm, ihs.1]
        · simp [cliRun, hterm, ihs.2.1]
        · simp [cliRun, hterm, List.count_append, hz, ihs.2.2]
  · intro interval timeout ca rest s hkm
    refine ⟨by simp [guiRun, hkm], ?_⟩
    cases awsValid <;> simp [smsNotifyEvents]

/-- Counterexample for C1 as stated: in the GUI loop an HTTPError cycle
exits the loop, but the run emits only the HTTP alert of that cycle and
zero termination alerts, not exactly one. -/
theorem protocol_error_stops_loop_counterexample :
    (guiRun testHash false 5 1 [⟨.err .httpError, none⟩] guiInit).2 = [Event.consoleHttp] ∧
    (guiRun testHash false 5 1
      [⟨.err .httpError, none⟩] guiInit).2.count Event.abortConsole = 0 ∧
    (0 : Nat) ≠ 1 :=
  ⟨by decide, by decide, by decide⟩

/-- Witness for C1: after one timeout cycle, an HTTPError terminates the
command-line loop and the run contains exactly one termination alert. -/
theorem protocol_error_stops_loop_amended_witness :
    (cliRun testHash false ([.err .timeout] ++ [.err .httpError]) cliInit).1.terminated = true ∧
    (cliRun testHash false
      ([.err .timeout] ++ [.err .httpError]) cliInit).2.count Event.abortConsole = 1 :=
  ⟨((protocol_error_stops_loop_amended testHash false).1 [.err .timeout]
      (by decide) [] cliInit rfl).2.1,
   ((protocol_error_stops_loop_amended testHash false).1 [.err .timeout]
      (by decide) [] cliInit rfl).2.2⟩
